import Mathlib

/-!
Shallow embedding of the dead-trees detection repository
(`code_for_dead_trees_detection.py`, `enhanced_toolbox.py`).

The evaluation engine (spatial-join counting and precision/recall/F1) is
embedded as pure functions over lists of joined rows; the fallible float
divisions of the Python source are embedded as `Except Unit` computations
over `ℚ`, erroring exactly where Python would raise `ZeroDivisionError`.
The toolbox `DetectDeadTrees.execute` is embedded twice, once as a
file-effect model (which files are created, which paths are tracked in the
`intermediates` list, what the `finally` cleanup deletes) and once as a
control-flow model (which stages run under which fault scenarios).
-/

namespace DeadTrees

/-- Embedding of lines 162–185 of `code_for_dead_trees_detection.py`:
`precision = TP / (TP + FP)`, `recall = TP / (TP + FN)`,
`f1_score = 2 * (precision * recall) / (precision + recall)`, evaluated in
this order, each division raising (here: `Except.error ()`) when its
denominator is zero. -/
def computeMetrics (TP FP FN : ℤ) : Except Unit (ℚ × ℚ × ℚ) :=
  if (TP : ℚ) + (FP : ℚ) = 0 then Except.error () else
  if (TP : ℚ) + (FN : ℚ) = 0 then Except.error () else
  if (TP : ℚ) / ((TP : ℚ) + (FP : ℚ)) + (TP : ℚ) / ((TP : ℚ) + (FN : ℚ)) = 0 then
    Except.error ()
  else
    Except.ok ((TP : ℚ) / ((TP : ℚ) + (FP : ℚ)),
               (TP : ℚ) / ((TP : ℚ) + (FN : ℚ)),
               2 * ((TP : ℚ) / ((TP : ℚ) + (FP : ℚ)) * ((TP : ℚ) / ((TP : ℚ) + (FN : ℚ))))
                 / ((TP : ℚ) / ((TP : ℚ) + (FP : ℚ)) + (TP : ℚ) / ((TP : ℚ) + (FN : ℚ))))

/-- One row of a spatially joined feature set: only the `Join_Count`
attribute is consumed by the evaluation code. -/
structure JoinedRow where
  join_count : ℤ
deriving DecidableEq

/-- Embedding of the `Select '"Join_Count" <> 0'` + `GetCount` pattern
(lines 137–152): matched rows and total rows of a joined feature set. -/
def countMatched (rows : List JoinedRow) : ℕ × ℕ :=
  ((rows.filter (fun r => r.join_count ≠ 0)).length, rows.length)

/-- The six scalar counts the evaluation script derives (lines 137–152). -/
structure EvalCounts where
  TP : ℤ
  FN : ℤ
  All_polygons : ℤ
  TP_2 : ℤ
  FP : ℤ
  All_points : ℤ
deriving DecidableEq

/-- Embedding of lines 137–152: `TP`/`All_polygons`/`FN` from the
polygons-to-points join, `TP_2`/`All_points`/`FP` from the
points-to-polygons join. -/
def evaluateCounts (polysToPoints pointsToPolys : List JoinedRow) : EvalCounts :=
  let TP : ℤ := ((countMatched polysToPoints).1 : ℤ)
  let All_polygons : ℤ := ((countMatched polysToPoints).2 : ℤ)
  let FN : ℤ := All_polygons - TP
  let TP_2 : ℤ := ((countMatched pointsToPolys).1 : ℤ)
  let All_points : ℤ := ((countMatched pointsToPolys).2 : ℤ)
  let FP : ℤ := All_points - TP_2
  ⟨TP, FN, All_polygons, TP_2, FP, All_points⟩

/-- Embedding of lines 162–190: the first metric triple uses `TP` with
`FP` and `FN`; the second ("inverted spatial join") triple uses `TP_2`
with the same `FP` and the same `FN`. -/
def evaluateMetrics (polysToPoints pointsToPolys : List JoinedRow) :
    Except Unit (ℚ × ℚ × ℚ) × Except Unit (ℚ × ℚ × ℚ) :=
  let c := evaluateCounts polysToPoints pointsToPolys
  (computeMetrics c.TP c.FP c.FN, computeMetrics c.TP_2 c.FP c.FN)

/-- The §8 end-to-end scenario, polygon side: 3 detected polygons, two of
which intersect a ground-truth point. -/
def scenarioPolysToPoints : List JoinedRow := [⟨1⟩, ⟨1⟩, ⟨0⟩]

/-- The §8 end-to-end scenario, point side: 2 ground-truth points, each
intersecting a detected polygon. -/
def scenarioPointsToPolys : List JoinedRow := [⟨1⟩, ⟨1⟩]

/-- C1: `computeMetrics` satisfies `precision = TP / (TP + FP)`,
`recall = TP / (TP + FN)` and `f1 = 2·precision·recall/(precision+recall)`
for non-negative integer inputs with non-zero denominators; at
TP = 8, FP = 2, FN = 1 it yields precision = 4/5 = 0.80, recall = 8/9 and
f1 = 16/19 ≈ 0.842 (within 0.001 of 0.842). -/
theorem computeMetrics_formula (TP FP FN : ℤ)
    (hTP : 0 ≤ TP) (hFP : 0 ≤ FP) (hFN : 0 ≤ FN)
    (h1 : (TP : ℚ) + (FP : ℚ) ≠ 0) (h2 : (TP : ℚ) + (FN : ℚ) ≠ 0)
    (h3 : (TP : ℚ) / ((TP : ℚ) + (FP : ℚ)) + (TP : ℚ) / ((TP : ℚ) + (FN : ℚ)) ≠ 0) :
    computeMetrics TP FP FN =
      Except.ok ((TP : ℚ) / ((TP : ℚ) + (FP : ℚ)),
                 (TP : ℚ) / ((TP : ℚ) + (FN : ℚ)),
                 2 * ((TP : ℚ) / ((TP : ℚ) + (FP : ℚ)) * ((TP : ℚ) / ((TP : ℚ) + (FN : ℚ))))
                   / ((TP : ℚ) / ((TP : ℚ) + (FP : ℚ)) + (TP : ℚ) / ((TP : ℚ) + (FN : ℚ)))) ∧
    computeMetrics 8 2 1 = Except.ok (4 / 5, 8 / 9, 16 / 19) ∧
    (842 : ℚ) / 1000 < 16 / 19 ∧ (16 : ℚ) / 19 < 843 / 1000 := by
  refine ⟨?_, by norm_num [computeMetrics], by norm_num, by norm_num⟩
  simp only [computeMetrics, if_neg h1, if_neg h2, if_neg h3]

/-- Witness for C1 at TP = 8, FP = 2, FN = 1. -/
theorem computeMetrics_formula_witness :
    computeMetrics 8 2 1 = Except.ok (4 / 5, 8 / 9, 16 / 19) :=
  (computeMetrics_formula 8 2 1 (by norm_num) (by norm_num) (by norm_num)
    (by norm_num) (by norm_num) (by norm_num)).2.1

/-- C2: `computeMetrics` errors (the unhandled division-by-zero of the
source) exactly when one of the denominators `TP + FP`, `TP + FN`,
`precision + recall` is zero. -/
theorem computeMetrics_error_iff (TP FP FN : ℤ) :
    computeMetrics TP FP FN = Except.error () ↔
      ((TP : ℚ) + (FP : ℚ) = 0 ∨ (TP : ℚ) + (FN : ℚ) = 0 ∨
       (TP : ℚ) / ((TP : ℚ) + (FP : ℚ)) + (TP : ℚ) / ((TP : ℚ) + (FN : ℚ)) = 0) := by
  unfold computeMetrics
  split_ifs with h1 h2 h3
  · simp [h1]
  · simp [h1, h2]
  · simp [h1, h2, h3]
  · simp [h1, h2, h3]

/-- Witness for C2: TP = 0, FP = 0 makes precision undefined and
`computeMetrics` errors. -/
theorem computeMetrics_error_iff_witness :
    computeMetrics 0 0 5 = Except.error () :=
  (computeMetrics_error_iff 0 0 5).mpr (Or.inl (by norm_num))

/-- C3 counterexample: on the §8 end-to-end scenario the point-view triple
computed by the code is (1, 2/3, 4/5) — its recall is 2/3, not the claimed
1.0 (the code reuses the polygon-view FN in the point-view recall). -/
theorem evaluateMetrics_pointView_recall_not_one :
    (evaluateMetrics scenarioPolysToPoints scenarioPointsToPolys).2 =
      Except.ok (1, 2 / 3, 4 / 5) ∧ ((2 : ℚ) / 3 ≠ 1) := by
  have h : evaluateCounts scenarioPolysToPoints scenarioPointsToPolys = ⟨2, 1, 3, 2, 0, 2⟩ := by
    decide
  constructor
  · simp only [evaluateMetrics, h]
    norm_num [computeMetrics]
  · norm_num

/-- C3 amended: on the end-to-end scenario the code computes counts
TP = 2, FN = 1, All_polygons = 3, TP_2 = 2, FP = 0, All_points = 2, a
poly-view triple precision = 1, recall = 2/3, f1 = 4/5, and a point-view
triple precision = 1, recall = 2/3, f1 = 4/5 (the point-view recall and f1
reuse the shared FN, so they equal the poly-view values here, not 1.0). -/
theorem evaluateMetrics_scenario_eval :
    evaluateCounts scenarioPolysToPoints scenarioPointsToPolys = ⟨2, 1, 3, 2, 0, 2⟩ ∧
    evaluateMetrics scenarioPolysToPoints scenarioPointsToPolys =
      (Except.ok (1, 2 / 3, 4 / 5), Except.ok (1, 2 / 3, 4 / 5)) := by
  have h : evaluateCounts scenarioPolysToPoints scenarioPointsToPolys = ⟨2, 1, 3, 2, 0, 2⟩ := by
    decide
  refine ⟨h, ?_⟩
  simp only [evaluateMetrics, h]
  norm_num [computeMetrics]

/-- Modelled from the spec: the `spatialJoin` capability (§4.2) delegated
to `arcpy.analysis.SpatialJoin` at lines 120–128 of
`code_for_dead_trees_detection.py`, whose implementation is not in this
repository — the number of intersecting join candidates attached to one
target feature. -/
def countIntersecting {α β : Type} (inter : α → β → Bool) (t : α) : List β → ℕ
  | [] => 0
  | c :: cs => (if inter t c then 1 else 0) + countIntersecting inter t cs

/-- Modelled from the spec: `spatialJoin(target, joinCandidates)` (§4.2)
produces, for every target feature in order, one row pairing the feature
with its `Join_Count`. -/
def spatialJoin {α β : Type} (inter : α → β → Bool) : List α → List β → List (α × ℕ)
  | [], _ => []
  | t :: ts, cands => (t, countIntersecting inter t cands) :: spatialJoin inter ts cands

/-- Forget the geometry of a joined output, keeping the `Join_Count`
attribute the evaluation script reads. -/
def joinedRows {α : Type} (out : List (α × ℕ)) : List JoinedRow :=
  out.map (fun p => ⟨(p.2 : ℤ)⟩)

theorem countIntersecting_eq_filter_length {α β : Type} (inter : α → β → Bool)
    (t : α) (cs : List β) :
    countIntersecting inter t cs = (cs.filter (fun c => inter t c)).length := by
  induction cs with
  | nil => rfl
  | cons c cs ih =>
    by_cases h : inter t c
    · simp [countIntersecting, List.filter, h, ih, Nat.add_comm]
    · simp [countIntersecting, List.filter, h, ih]

theorem spatialJoin_map_fst {α β : Type} (inter : α → β → Bool)
    (A : List α) (B : List β) :
    (spatialJoin inter A B).map Prod.fst = A := by
  induction A with
  | nil => rfl
  | cons t ts ih => simp [spatialJoin, ih]

theorem matched_spatialJoin {α β : Type} (inter : α → β → Bool)
    (ts : List α) (cs : List β) :
    ((joinedRows (spatialJoin inter ts cs)).filter (fun r => r.join_count ≠ 0)).length
      = (ts.filter (fun t => 0 < countIntersecting inter t cs)).length := by
  induction ts with
  | nil => rfl
  | cons t ts ih =>
    simp only [joinedRows, spatialJoin, List.map_cons, List.filter_cons] at ih ⊢
    simp only [ne_eq, decide_not] at ih ⊢
    by_cases h : countIntersecting inter t cs = 0
    · simp [h, ih]
    · have h' : ((countIntersecting inter t cs : ℤ)) ≠ 0 := by exact_mod_cast h
      simp [h', Nat.pos_of_ne_zero h, ih]

theorem unmatched_spatialJoin {α β : Type} (inter : α → β → Bool)
    (ts : List α) (cs : List β) :
    (ts.length : ℤ)
        - ((joinedRows (spatialJoin inter ts cs)).filter (fun r => r.join_count ≠ 0)).length
      = ((ts.filter (fun t => countIntersecting inter t cs = 0)).length : ℤ) := by
  rw [matched_spatialJoin]
  have hsplit : (ts.filter (fun t => countIntersecting inter t cs = 0)).length
      + (ts.filter (fun t => 0 < countIntersecting inter t cs)).length = ts.length := by
    induction ts with
    | nil => rfl
    | cons t ts ih =>
      by_cases h : countIntersecting inter t cs = 0
      · simp [List.filter_cons, h, ← ih]; omega
      · simp [List.filter_cons, h, Nat.pos_of_ne_zero h, ← ih]; omega
  omega

/-- C6: `countMatched` returns (rows with `Join_Count ≠ 0`, row count);
matched ≤ total always, and equivalently in the evaluation
FN = All_polygons − TP ≥ 0 and FP = All_points − TP_2 ≥ 0. -/
theorem countMatched_le_total (rows ptp pt2 : List JoinedRow) :
    (countMatched rows).1 = (rows.filter (fun r => r.join_count ≠ 0)).length ∧
    (countMatched rows).2 = rows.length ∧
    (countMatched rows).1 ≤ (countMatched rows).2 ∧
    0 ≤ (evaluateCounts ptp pt2).FN ∧
    0 ≤ (evaluateCounts ptp pt2).FP := by
  refine ⟨rfl, rfl, List.length_filter_le _ _, ?_, ?_⟩ <;>
    simp only [evaluateCounts, countMatched, sub_nonneg, Int.ofNat_le] <;>
    exact_mod_cast List.length_filter_le _ _

/-- C7: on joined outputs of the double spatial join, the evaluation
derives FN = detected-polygon count − TP where TP counts the polygons with
at least one intersecting ground-truth point, and FP = the number of
ground-truth points with zero intersecting detected polygon, equal to
All_points − TP_2 from the inverse join. -/
theorem evaluateCounts_FN_FP {α β : Type} (interA : α → β → Bool) (interB : β → α → Bool)
    (polys : List α) (pts : List β) :
    (evaluateCounts (joinedRows (spatialJoin interA polys pts))
        (joinedRows (spatialJoin interB pts polys))).FN
        = (polys.length : ℤ)
          - ((polys.filter (fun t => 0 < countIntersecting interA t pts)).length : ℤ) ∧
    (evaluateCounts (joinedRows (spatialJoin interA polys pts))
        (joinedRows (spatialJoin interB pts polys))).TP
        = ((polys.filter (fun t => 0 < countIntersecting interA t pts)).length : ℤ) ∧
    (evaluateCounts (joinedRows (spatialJoin interA polys pts))
        (joinedRows (spatialJoin interB pts polys))).FP
        = ((pts.filter (fun p => countIntersecting interB p polys = 0)).length : ℤ) ∧
    (evaluateCounts (joinedRows (spatialJoin interA polys pts))
        (joinedRows (spatialJoin interB pts polys))).FP
        = (evaluateCounts (joinedRows (spatialJoin interA polys pts))
            (joinedRows (spatialJoin interB pts polys))).All_points
          - (evaluateCounts (joinedRows (spatialJoin interA polys pts))
              (joinedRows (spatialJoin interB pts polys))).TP_2 := by
  have hlenA : (joinedRows (spatialJoin interA polys pts)).length = polys.length := by
    have := spatialJoin_map_fst interA polys pts
    simpa [joinedRows] using congrArg List.length this
  have hlenB : (joinedRows (spatialJoin interB pts polys)).length = pts.length := by
    have := spatialJoin_map_fst interB pts polys
    simpa [joinedRows] using congrArg List.length this
  refine ⟨?_, ?_, ?_, rfl⟩
  · simp only [evaluateCounts, countMatched, matched_spatialJoin, hlenA]
  · simp only [evaluateCounts, countMatched, matched_spatialJoin]
  · simp only [evaluateCounts, countMatched, hlenB]
    rw [← unmatched_spatialJoin]

/-- C8: `spatialJoin(A, B)` preserves cardinality — one output row per
target feature, in order — and a target intersecting K candidates yields
`Join_Count = K` (0 when none intersect). -/
theorem spatialJoin_cardinality {α β : Type} (inter : α → β → Bool)
    (A : List α) (B : List β) :
    (spatialJoin inter A B).length = A.length ∧
    (spatialJoin inter A B).map Prod.fst = A ∧
    ∀ p ∈ spatialJoin inter A B, p.2 = (B.filter (fun c => inter p.1 c)).length := by
  refine ⟨?_, spatialJoin_map_fst inter A B, ?_⟩
  · have := spatialJoin_map_fst inter A B
    simpa using congrArg List.length this
  · intro p hp
    induction A with
    | nil => simp [spatialJoin] at hp
    | cons t ts ih =>
      simp only [spatialJoin, List.mem_cons] at hp
      rcases hp with h | h
      · subst h; exact countIntersecting_eq_filter_length inter t B
      · exact ih h

/-- Witness for C8 at a concrete join: target 5 intersects no candidate in
[2, 3] and its row carries `Join_Count = 0`. -/
theorem spatialJoin_cardinality_witness :
    ((5, 0) ∈ spatialJoin (fun a b : ℕ => a == b) [2, 5] [2, 3]) ∧
    (((5 : ℕ), (0 : ℕ)).2 = ([2, 3].filter (fun c => (5 : ℕ) == c)).length) :=
  ⟨by decide,
   (spatialJoin_cardinality (fun a b : ℕ => a == b) [2, 5] [2, 3]).2.2 (5, 0) (by decide)⟩

/-- Target of one remap entry of `arcpy.sa.RemapValue`: either the NoData
sentinel or a concrete output value. -/
inductive RemapTarget : Type
  | noData : RemapTarget
  | toValue : ℤ → RemapTarget
deriving DecidableEq

/-- Embedding of the `RemapValue` literal at lines 235–240 of
`enhanced_toolbox.py`: classes 1–9 to NODATA, class 10 to 1. -/
def deadTreesRemapValue : List (ℤ × RemapTarget) :=
  [(1, RemapTarget.noData), (2, RemapTarget.noData), (3, RemapTarget.noData),
   (4, RemapTarget.noData), (5, RemapTarget.noData), (6, RemapTarget.noData),
   (7, RemapTarget.noData), (8, RemapTarget.noData), (9, RemapTarget.noData),
   (10, RemapTarget.toValue 1)]

/-- The remap table `DetectDeadTrees.execute` builds for a given
`number_classes` parameter: the source constructs the same literal
`RemapValue` whatever `number_classes` holds (lines 168 and 235–240). -/
def executeRemap (number_classes : ℕ) : List (ℤ × RemapTarget) :=
  deadTreesRemapValue

/-- Where a remap table sends a class value (`none`: value absent from the
table). -/
def remapLookup (m : List (ℤ × RemapTarget)) (v : ℤ) : Option RemapTarget :=
  (m.find? (fun p => p.1 == v)).map Prod.snd

/-- C4 counterexample: with `number_classes = 5` the reclassify stage does
not collapse class 5 (= nClasses) to value 1 — it maps it to NoData, and
the class collapsed to 1 is still 10. -/
theorem executeRemap_class_eq_nClasses_fails :
    ¬ (remapLookup (executeRemap 5) 5 = some (RemapTarget.toValue 1)) ∧
    remapLookup (executeRemap 5) 5 = some RemapTarget.noData ∧
    remapLookup (executeRemap 5) 10 = some (RemapTarget.toValue 1) := by
  refine ⟨by decide, by decide, by decide⟩

/-- C4 amended: for every configured class count, the reclassify remap is
the fixed table sending classes 1–9 to NoData and class 10 to value 1; the
dead-tree class index is hardcoded to 10, independent of `number_classes`
(it equals nClasses only at the default 10). -/
theorem executeRemap_fixed_class_ten (number_classes : ℕ) (c : ℤ)
    (hc : 1 ≤ c ∧ c ≤ 9) :
    executeRemap number_classes = deadTreesRemapValue ∧
    remapLookup (executeRemap number_classes) 10 = some (RemapTarget.toValue 1) ∧
    remapLookup (executeRemap number_classes) c = some RemapTarget.noData := by
  refine ⟨rfl, ?_, ?_⟩
  · simp only [executeRemap]
    decide
  · simp only [executeRemap]
    obtain ⟨h1, h9⟩ := hc
    interval_cases c <;> decide

/-- Witness for C4 amended at `number_classes = 7`, class 3. -/
theorem executeRemap_fixed_class_ten_witness :
    remapLookup (executeRemap 7) 3 = some RemapTarget.noData :=
  (executeRemap_fixed_class_ten 7 3 (by decide)).2.2

/-- One file-effect instruction of `DetectDeadTrees.execute`: create an
artifact in the workspace, or append a path to the `intermediates`
list. -/
inductive FileOp : Type
  | create : String → FileOp
  | track : String → FileOp
deriving DecidableEq

/-- Embedding of the file effects of `DetectDeadTrees.execute`
(lines 210–323 of `enhanced_toolbox.py`), in source order. With a forest
mask, `aerial_image` is created and tracked; without one, the input raster
is used as-is (line 220) and nothing is created or tracked for step 1.
`trees_buffer_processed` (line 319) and the final output (line 323) are
created but never appended to `intermediates`. -/
def pipelineFileOps (maskProvided : Bool) : List FileOp :=
  (if maskProvided then [FileOp.create "aerial_image", FileOp.track "aerial_image"] else []) ++
  [FileOp.create "classified", FileOp.track "classified",
   FileOp.create "dead_trees", FileOp.track "dead_trees",
   FileOp.create "blue_mask", FileOp.track "blue_mask",
   FileOp.create "extracted_raster_one_band", FileOp.track "extracted_raster_one_band",
   FileOp.create "filtered", FileOp.track "filtered",
   FileOp.create "expanded", FileOp.track "expanded",
   FileOp.create "shrinked", FileOp.track "shrinked",
   FileOp.create "region_group", FileOp.track "region_group",
   FileOp.create "dead_trees_vector",
   FileOp.create "dead_trees_selected",
   FileOp.track "dead_trees_vector", FileOp.track "dead_trees_selected",
   FileOp.create "buffered_trees", FileOp.track "buffered_trees",
   FileOp.create "dissolved_buffer", FileOp.track "dissolved_buffer",
   FileOp.create "trees_buffer_processed",
   FileOp.create "output_features"]

/-- Workspace state during a run: existing files and the `intermediates`
list. -/
structure WSState : Type where
  files : List String
  intermediates : List String
deriving DecidableEq

/-- Effect of one instruction (`overwriteOutput = True`, so creating an
existing file leaves one copy). -/
def applyOp (s : WSState) (op : FileOp) : WSState :=
  match op with
  | FileOp.create n => ⟨if n ∈ s.files then s.files else s.files ++ [n], s.intermediates⟩
  | FileOp.track n => ⟨s.files, s.intermediates ++ [n]⟩

/-- Run the body of `execute` from an initial workspace until `completed`
instructions have run (an exception after that point jumps to the
`finally` block; `completed ≥` the list length is a successful run). -/
def runBody (init : WSState) (maskProvided : Bool) (completed : ℕ) : WSState :=
  ((pipelineFileOps maskProvided).take completed).foldl applyOp init

/-- Embedding of the `finally` cleanup (lines 339–346): every path of the
deduplicated `intermediates` set that exists is deleted, with failures
swallowed — a file survives unless it is tracked and its deletion
succeeds. -/
def cleanupRun (deleteOk : String → Bool) (s : WSState) : List String :=
  s.files.filter (fun f => !(decide (f ∈ s.intermediates) && deleteOk f))

/-- Files left in the workspace after a run of `execute` that completed
`completed` body instructions and then ran the cleanup. -/
def runDetect (init : WSState) (maskProvided : Bool) (completed : ℕ)
    (deleteOk : String → Bool) : List String :=
  cleanupRun deleteOk (runBody init maskProvided completed)

/-- The working raster of step 1 (lines 212–220): the masked extract when
a forest mask is provided, the caller's input raster path as-is
otherwise. -/
def aerialImage (maskProvided : Bool) (input_raster : String) : String :=
  if maskProvided then "aerial_image" else input_raster

/-- The paths `execute` ever appends to `intermediates`. -/
def trackedNames (maskProvided : Bool) : List String :=
  (pipelineFileOps maskProvided).filterMap
    (fun op => match op with
      | FileOp.track n => some n
      | FileOp.create _ => none)

/-- C5: even on a fully successful run (forest mask provided, every
deletion succeeding), the declared intermediate `trees_buffer_processed`
remains in the workspace — it is never appended to `intermediates`, so the
cleanup never deletes it. -/
theorem runDetect_leaves_trees_buffer_processed :
    runDetect ⟨[], []⟩ true (pipelineFileOps true).length (fun _ => true)
      = ["trees_buffer_processed", "output_features"] ∧
    "trees_buffer_processed" ∈
      runDetect ⟨[], []⟩ true (pipelineFileOps true).length (fun _ => true) := by
  refine ⟨by decide, by decide⟩

theorem runBody_files_mono (ops : List FileOp) (init : WSState) (f : String)
    (hf : f ∈ init.files) : f ∈ (ops.foldl applyOp init).files := by
  induction ops generalizing init with
  | nil => exact hf
  | cons op ops ih =>
    refine ih _ ?_
    cases op with
    | create n =>
      by_cases h : n ∈ init.files
      · simpa [applyOp, h] using hf
      · simp [applyOp, h, hf]
    | track n => simpa [applyOp] using hf

theorem runBody_intermediates_sub (ops : List FileOp) (init : WSState) :
    (ops.foldl applyOp init).intermediates ⊆
      init.intermediates ++ ops.filterMap
        (fun op => match op with
          | FileOp.track n => some n
          | FileOp.create _ => none) := by
  induction ops generalizing init with
  | nil => simp
  | cons op ops ih =>
    intro x hx
    cases op with
    | create n =>
      have := ih ⟨if n ∈ init.files then init.files else init.files ++ [n],
        init.intermediates⟩ hx
      simpa [applyOp] using this
    | track n =>
      have := ih ⟨init.files, init.intermediates ++ [n]⟩ hx
      simp only [applyOp] at this
      simp only [List.filterMap_cons]
      rcases List.mem_append.mp this with h | h
      · rcases List.mem_append.mp h with h' | h'
        · exact List.mem_append_left _ h'
        · simp at h'
          simp [h']
      · simp [List.mem_append.mpr (Or.inr (List.mem_cons.mpr (Or.inr h)))]

/-- C10: without a forest mask the pipeline works directly on the caller's
input raster path; on every exit path (any number of completed
instructions, any deletion outcomes) the input path is never in the
`intermediates` list and survives the cleanup, provided it does not
collide with one of the generated temp names. -/
theorem input_survives_cleanup (input_raster : String) (completed : ℕ)
    (deleteOk : String → Bool) (h : input_raster ∉ trackedNames false) :
    aerialImage false input_raster = input_raster ∧
    input_raster ∉ (runBody ⟨[input_raster], []⟩ false completed).intermediates ∧
    input_raster ∈ runDetect ⟨[input_raster], []⟩ false completed deleteOk := by
  have hnot : input_raster ∉ (runBody ⟨[input_raster], []⟩ false completed).intermediates := by
    intro hmem
    have hsub := runBody_intermediates_sub ((pipelineFileOps false).take completed)
      ⟨[input_raster], []⟩
    have := hsub hmem
    simp only [List.nil_append] at this
    refine h ?_
    have htake : ((pipelineFileOps false).take completed).Sublist (pipelineFileOps false) :=
      List.take_sublist _ _
    exact (htake.filterMap _).subset this
  refine ⟨rfl, hnot, ?_⟩
  have hfile : input_raster ∈ (runBody ⟨[input_raster], []⟩ false completed).files :=
    runBody_files_mono _ _ _ (by simp)
  simp only [runDetect, cleanupRun, List.mem_filter]
  exact ⟨hfile, by simp [hnot]⟩

/-- Witness for C10: a concrete input path, a full run, all deletions
succeeding. -/
theorem input_survives_cleanup_witness :
    "my_input.tif" ∈ runDetect ⟨["my_input.tif"], []⟩ false 30 (fun _ => true) :=
  (input_survives_cleanup "my_input.tif" 30 (fun _ => true) (by decide)).2.2

/-- The operations of the `try` body of `DetectDeadTrees.execute` in
source order, each tagged with whether an exception raised there is caught
and recovered from. Only the blue-band read (lines 247–254) sits inside an
inner `try/except Exception` that logs a warning and falls back to the
full raster; every other failure reaches the outer handlers, which
re-raise (lines 333–338). -/
def stageOps : List (String × Bool) :=
  [("extract_by_mask", false),
   ("iso_cluster_classify", false),
   ("reclassify_classes", false),
   ("read_blue_band", true),
   ("con_threshold", false),
   ("extract_by_blue_mask", false),
   ("majority_filter", false),
   ("expand_one_cell", false),
   ("shrink_one_cell", false),
   ("region_group_cc", false),
   ("raster_to_polygon", false),
   ("calculate_area", false),
   ("select_by_area", false),
   ("buffer_polygons", false),
   ("dissolve_buffer", false),
   ("select_by_buffer_area", false),
   ("copy_features_out", false)]

/-- Run a list of (operation, recoverable) pairs under a fault scenario
`fails`: a non-failing operation completes and is recorded; a failing
recoverable operation is skipped (the fallback runs) and execution
continues; a failing non-recoverable operation aborts with its name as the
propagated error. Returns (completed operations, propagated error). -/
def runStages (fails : String → Bool) : List (String × Bool) → List String × Option String
  | [] => ([], none)
  | (name, recoverable) :: rest =>
    if fails name then
      if recoverable then runStages fails rest
      else ([], some name)
    else
      let r := runStages fails rest
      (name :: r.1, r.2)

/-- C9 counterexample: under the fault scenario where exactly the
blue-band read fails, the pipeline does not abort — the error is swallowed
by the fallback `except`, every other operation (including the final
`copy_features_out`) still executes, and no error propagates. -/
theorem runStages_blue_band_failure_continues :
    (fun s => s == "read_blue_band") "read_blue_band" = true ∧
    ("read_blue_band", true) ∈ stageOps ∧
    (runStages (fun s => s == "read_blue_band") stageOps).2 = none ∧
    "copy_features_out" ∈ (runStages (fun s => s == "read_blue_band") stageOps).1 ∧
    (runStages (fun s => s == "read_blue_band") stageOps).1.length = 16 := by
  refine ⟨by decide, by decide, by decide, by decide, by decide⟩

/-- C9 amended: under any fault scenario, the operations that complete are
exactly the non-failing operations preceding the first failing
non-recoverable operation, and the propagated error is that first failing
non-recoverable operation (none when there is none) — so any stage failure
aborts the pipeline with nothing after it executing, except a blue-band
read failure, the unique recoverable operation, which is swallowed and
execution continues. -/
theorem runStages_first_fatal_aborts (fails : String → Bool) :
    runStages fails stageOps =
      (((stageOps.takeWhile (fun p => !(fails p.1 && !p.2))).filter
          (fun p => !fails p.1)).map Prod.fst,
       (stageOps.find? (fun p => fails p.1 && !p.2)).map Prod.fst) ∧
    (stageOps.filter (fun p => p.2)).map Prod.fst = ["read_blue_band"] := by
  have key : ∀ ops : List (String × Bool), runStages fails ops =
      (((ops.takeWhile (fun p => !(fails p.1 && !p.2))).filter
          (fun p => !fails p.1)).map Prod.fst,
       (ops.find? (fun p => fails p.1 && !p.2)).map Prod.fst) := by
    intro ops
    induction ops with
    | nil => rfl
    | cons p rest ih =>
      obtain ⟨name, recoverable⟩ := p
      by_cases hf : fails name
      · cases recoverable with
        | true => simp [runStages, hf, List.takeWhile_cons, List.find?, ih]
        | false => simp [runStages, hf, List.takeWhile_cons, List.find?]
      · simp [runStages, hf, List.takeWhile_cons, List.find?, ih]
  exact ⟨key stageOps, by decide⟩

end DeadTrees
